import Mathlib

/-!
Verification of the plasma store specification against the repository
sources.  The configuration layer (`Config`, `applyConfigDefaults`,
`DefaultConfig`) is translated directly from `plasma/config.go`.  The
store implementation itself (writers, iterators, recovery, eviction) is
not part of the sources; the definitions for those claims are modelled
from the specification and are marked as such in their doc comments.
-/

set_option maxHeartbeats 1000000

/-- Function-valued configuration fields of the Go `Config` struct
(`skiplist.CompareFn`, `ItemSizeFn`, ...) are opaque callbacks.  They are
embedded as symbolic values: the named constants that `config.go` itself
assigns (`memcopy`, `cmpItem`, `copyItem`, `QuotaSwapper`, the inline
closures of `DefaultConfig` and `applyConfigDefaults`) plus arbitrary
caller-supplied functions.  A Go `nil` function is `Option.none`. -/
inductive FnVal where
  | memcopy
  | cmpItem
  | copyItem
  | quotaSwapper
  | defaultItemSize
  | defaultItemRunSize
  | defaultItemRunCopy
  | custom (id : Nat)
  deriving DecidableEq

/-- The `Config` struct of `plasma/config.go` (lines 18-58), field for
field.  Go `int`/`int64` fields are embedded as `Int`, `string` as
`String`, `bool` as `Bool`, and function fields as `Option FnVal`. -/
structure Config where
  MaxDeltaChainLen   : Int
  MaxPageItems       : Int
  MinPageItems       : Int
  MaxPageLSSSegments : Int
  Compare            : Option FnVal
  ItemSize           : Option FnVal
  CopyItem           : Option FnVal
  ItemRunSize        : Option FnVal
  CopyItemRun        : Option FnVal
  IndexKeySize : Option FnVal
  CopyIndexKey : Option FnVal
  LSSLogSegmentSize   : Int
  File                : String
  FlushBufferSize     : Int
  NumPersistorThreads : Int
  NumEvictorThreads   : Int
  LSSCleanerThreshold       : Int
  LSSCleanerMaxThreshold    : Int
  LSSCleanerMinSize         : Int
  LSSCleanerThrottleMinSize : Int
  AutoLSSCleaning : Bool
  AutoSwapper     : Bool
  EnableShapshots : Bool
  TriggerSwapper : Option FnVal
  shouldPersist  : Bool
  MaxSnSyncFrequency : Int
  SyncInterval       : Int
  UseMemoryMgmt : Bool
  UseMmap       : Bool
  UseCompression : Bool

/-- The Go zero value of `Config`: every field of a Go struct literal
that is not mentioned starts at its zero value (`0`, `""`, `false`,
`nil`). -/
def zeroConfig : Config where
  MaxDeltaChainLen := 0
  MaxPageItems := 0
  MinPageItems := 0
  MaxPageLSSSegments := 0
  Compare := none
  ItemSize := none
  CopyItem := none
  ItemRunSize := none
  CopyItemRun := none
  IndexKeySize := none
  CopyIndexKey := none
  LSSLogSegmentSize := 0
  File := ""
  FlushBufferSize := 0
  NumPersistorThreads := 0
  NumEvictorThreads := 0
  LSSCleanerThreshold := 0
  LSSCleanerMaxThreshold := 0
  LSSCleanerMinSize := 0
  LSSCleanerThrottleMinSize := 0
  AutoLSSCleaning := false
  AutoSwapper := false
  EnableShapshots := false
  TriggerSwapper := none
  shouldPersist := false
  MaxSnSyncFrequency := 0
  SyncInterval := 0
  UseMemoryMgmt := false
  UseMmap := false
  UseCompression := false

/-! The thirteen if-blocks of `applyConfigDefaults` in
`plasma/config.go` (lines 60-135), one definition per block, in source
order; `applyConfigDefaults` below is their composition.
`runtime.NumCPU()` is environment dependent and is passed in as the
parameter `numCPU`. -/

/-- Source line 61: default `NumPersistorThreads` to `runtime.NumCPU()`. -/
def stepNumPersistor (numCPU : Int) (cfg : Config) : Config :=
  if cfg.NumPersistorThreads = 0 then
    { cfg with NumPersistorThreads := numCPU } else cfg

/-- Source line 65: default `NumEvictorThreads` to `runtime.NumCPU()`. -/
def stepNumEvictor (numCPU : Int) (cfg : Config) : Config :=
  if cfg.NumEvictorThreads = 0 then
    { cfg with NumEvictorThreads := numCPU } else cfg

/-- Source line 69: default `TriggerSwapper` to `QuotaSwapper`. -/
def stepTrigger (cfg : Config) : Config :=
  if cfg.TriggerSwapper.isNone then
    { cfg with TriggerSwapper := some FnVal.quotaSwapper } else cfg

/-- Source line 73: empty `File` disables cleaning and auto-swap,
non-empty `File` enables persistence. -/
def stepFile (cfg : Config) : Config :=
  if cfg.File = "" then
    { cfg with AutoLSSCleaning := false, AutoSwapper := false }
  else
    { cfg with shouldPersist := true }

/-- Source line 80: default `MaxSnSyncFrequency` to 360000. -/
def stepMaxSnSync (cfg : Config) : Config :=
  if cfg.MaxSnSyncFrequency = 0 then
    { cfg with MaxSnSyncFrequency := 360000 } else cfg

/-- Source line 84: default `LSSLogSegmentSize` to 4 GiB. -/
def stepLogSegment (cfg : Config) : Config :=
  if cfg.LSSLogSegmentSize = 0 then
    { cfg with LSSLogSegmentSize := 1024 * 1024 * 1024 * 4 } else cfg

/-- Source line 88: default `MaxPageLSSSegments` to 4. -/
def stepMaxPageLSS (cfg : Config) : Config :=
  if cfg.MaxPageLSSSegments = 0 then
    { cfg with MaxPageLSSSegments := 4 } else cfg

/-- Source line 92: default `CopyItem` to `memcopy`. -/
def stepCopyItem (cfg : Config) : Config :=
  if cfg.CopyItem.isNone then
    { cfg with CopyItem := some FnVal.memcopy } else cfg

/-- Source line 96: default `CopyIndexKey` to `memcopy`. -/
def stepCopyIndexKey (cfg : Config) : Config :=
  if cfg.CopyIndexKey.isNone then
    { cfg with CopyIndexKey := some FnVal.memcopy } else cfg

/-- Source line 100: default `IndexKeySize` to `ItemSize`. -/
def stepIndexKeySize (cfg : Config) : Config :=
  if cfg.IndexKeySize.isNone then
    { cfg with IndexKeySize := cfg.ItemSize } else cfg

/-- Source line 104: default `ItemRunSize` and `CopyItemRun` to the
inline closures built from `ItemSize` and `CopyItem`. -/
def stepItemRun (cfg : Config) : Config :=
  if cfg.ItemRunSize.isNone then
    { cfg with ItemRunSize := some FnVal.defaultItemRunSize,
               CopyItemRun := some FnVal.defaultItemRunCopy } else cfg

/-- Source line 126: default `LSSCleanerMaxThreshold` to
`LSSCleanerThreshold + 10`. -/
def stepCleanerMax (cfg : Config) : Config :=
  if cfg.LSSCleanerMaxThreshold = 0 then
    { cfg with LSSCleanerMaxThreshold := cfg.LSSCleanerThreshold + 10 } else cfg

/-- Source line 130: raise `LSSCleanerThrottleMinSize` to at least
`LSSCleanerMinSize`. -/
def stepThrottleMin (cfg : Config) : Config :=
  if cfg.LSSCleanerThrottleMinSize < cfg.LSSCleanerMinSize then
    { cfg with LSSCleanerThrottleMinSize := cfg.LSSCleanerMinSize } else cfg

/-- `applyConfigDefaults` of `plasma/config.go` (lines 60-135): the
thirteen defaulting blocks applied in source order. -/
def applyConfigDefaults (numCPU : Int) (cfg : Config) : Config :=
  stepThrottleMin (stepCleanerMax (stepItemRun (stepIndexKeySize
    (stepCopyIndexKey (stepCopyItem (stepMaxPageLSS (stepLogSegment
      (stepMaxSnSync (stepFile (stepTrigger (stepNumEvictor numCPU
        (stepNumPersistor numCPU cfg))))))))))))

/-- `DefaultConfig` of `plasma/config.go` (lines 137-161); fields the Go
struct literal leaves out keep their zero value. -/
def DefaultConfig : Config :=
  { zeroConfig with
    UseCompression := true
    MaxDeltaChainLen := 200
    MaxPageItems := 400
    MinPageItems := 25
    Compare := some FnVal.cmpItem
    ItemSize := some FnVal.defaultItemSize
    CopyItem := some FnVal.copyItem
    CopyIndexKey := some FnVal.copyItem
    FlushBufferSize := 1024 * 1024 * 1
    LSSCleanerThreshold := 10
    LSSCleanerMinSize := 16 * 1024 * 1024
    LSSCleanerThrottleMinSize := 1024 * 1024 * 1024
    AutoLSSCleaning := true
    AutoSwapper := false
    EnableShapshots := true
    SyncInterval := 0 }

/-! Update normal forms: each defaulting block written as a single
record update whose field value carries the conditional.  The `else`
branches agree with the original by structure eta. -/

theorem stepNumPersistor_eq (numCPU : Int) (cfg : Config) :
    stepNumPersistor numCPU cfg =
      { cfg with NumPersistorThreads :=
          if cfg.NumPersistorThreads = 0 then numCPU
          else cfg.NumPersistorThreads } := by
  unfold stepNumPersistor
  by_cases h : cfg.NumPersistorThreads = 0
  · rw [if_pos h, if_pos h]
  · rw [if_neg h, if_neg h]

theorem stepNumEvictor_eq (numCPU : Int) (cfg : Config) :
    stepNumEvictor numCPU cfg =
      { cfg with NumEvictorThreads :=
          if cfg.NumEvictorThreads = 0 then numCPU
          else cfg.NumEvictorThreads } := by
  unfold stepNumEvictor
  by_cases h : cfg.NumEvictorThreads = 0
  · rw [if_pos h, if_pos h]
  · rw [if_neg h, if_neg h]

theorem stepTrigger_eq (cfg : Config) :
    stepTrigger cfg =
      { cfg with TriggerSwapper :=
          if cfg.TriggerSwapper.isNone then some FnVal.quotaSwapper
          else cfg.TriggerSwapper } := by
  unfold stepTrigger
  by_cases h : cfg.TriggerSwapper.isNone = true
  · rw [if_pos h, if_pos h]
  · rw [if_neg h, if_neg h]

theorem stepFile_eq (cfg : Config) :
    stepFile cfg =
      { cfg with
          AutoLSSCleaning :=
            if cfg.File = "" then false else cfg.AutoLSSCleaning
          AutoSwapper :=
            if cfg.File = "" then false else cfg.AutoSwapper
          shouldPersist :=
            if cfg.File = "" then cfg.shouldPersist else true } := by
  unfold stepFile
  by_cases h : cfg.File = ""
  · rw [if_pos h, if_pos h, if_pos h, if_pos h]
  · rw [if_neg h, if_neg h, if_neg h, if_neg h]

theorem stepMaxSnSync_eq (cfg : Config) :
    stepMaxSnSync cfg =
      { cfg with MaxSnSyncFrequency :=
          if cfg.MaxSnSyncFrequency = 0 then 360000
          else cfg.MaxSnSyncFrequency } := by
  unfold stepMaxSnSync
  by_cases h : cfg.MaxSnSyncFrequency = 0
  · rw [if_pos h, if_pos h]
  · rw [if_neg h, if_neg h]

theorem stepLogSegment_eq (cfg : Config) :
    stepLogSegment cfg =
      { cfg with LSSLogSegmentSize :=
          if cfg.LSSLogSegmentSize = 0 then 1024 * 1024 * 1024 * 4
          else cfg.LSSLogSegmentSize } := by
  unfold stepLogSegment
  by_cases h : cfg.LSSLogSegmentSize = 0
  · rw [if_pos h, if_pos h]
  · rw [if_neg h, if_neg h]

theorem stepMaxPageLSS_eq (cfg : Config) :
    stepMaxPageLSS cfg =
      { cfg with MaxPageLSSSegments :=
          if cfg.MaxPageLSSSegments = 0 then 4
          else cfg.MaxPageLSSSegments } := by
  unfold stepMaxPageLSS
  by_cases h : cfg.MaxPageLSSSegments = 0
  · rw [if_pos h, if_pos h]
  · rw [if_neg h, if_neg h]

theorem stepCopyItem_eq (cfg : Config) :
    stepCopyItem cfg =
      { cfg with CopyItem :=
          if cfg.CopyItem.isNone then some FnVal.memcopy
          else cfg.CopyItem } := by
  unfold stepCopyItem
  by_cases h : cfg.CopyItem.isNone = true
  · rw [if_pos h, if_pos h]
  · rw [if_neg h, if_neg h]

theorem stepCopyIndexKey_eq (cfg : Config) :
    stepCopyIndexKey cfg =
      { cfg with CopyIndexKey :=
          if cfg.CopyIndexKey.isNone then some FnVal.memcopy
          else cfg.CopyIndexKey } := by
  unfold stepCopyIndexKey
  by_cases h : cfg.CopyIndexKey.isNone = true
  · rw [if_pos h, if_pos h]
  · rw [if_neg h, if_neg h]

theorem stepIndexKeySize_eq (cfg : Config) :
    stepIndexKeySize cfg =
      { cfg with IndexKeySize :=
          if cfg.IndexKeySize.isNone then cfg.ItemSize
          else cfg.IndexKeySize } := by
  unfold stepIndexKeySize
  by_cases h : cfg.IndexKeySize.isNone = true
  · rw [if_pos h, if_pos h]
  · rw [if_neg h, if_neg h]

theorem stepItemRun_eq (cfg : Config) :
    stepItemRun cfg =
      { cfg with
          ItemRunSize :=
            if cfg.ItemRunSize.isNone then some FnVal.defaultItemRunSize
            else cfg.ItemRunSize
          CopyItemRun :=
            if cfg.ItemRunSize.isNone then some FnVal.defaultItemRunCopy
            else cfg.CopyItemRun } := by
  unfold stepItemRun
  by_cases h : cfg.ItemRunSize.isNone = true
  · rw [if_pos h, if_pos h, if_pos h]
  · rw [if_neg h, if_neg h, if_neg h]

theorem stepCleanerMax_eq (cfg : Config) :
    stepCleanerMax cfg =
      { cfg with LSSCleanerMaxThreshold :=
          if cfg.LSSCleanerMaxThreshold = 0 then cfg.LSSCleanerThreshold + 10
          else cfg.LSSCleanerMaxThreshold } := by
  unfold stepCleanerMax
  by_cases h : cfg.LSSCleanerMaxThreshold = 0
  · rw [if_pos h, if_pos h]
  · rw [if_neg h, if_neg h]

theorem stepThrottleMin_eq (cfg : Config) :
    stepThrottleMin cfg =
      { cfg with LSSCleanerThrottleMinSize :=
          if cfg.LSSCleanerThrottleMinSize < cfg.LSSCleanerMinSize then
            cfg.LSSCleanerMinSize
          else cfg.LSSCleanerThrottleMinSize } := by
  unfold stepThrottleMin
  by_cases h : cfg.LSSCleanerThrottleMinSize < cfg.LSSCleanerMinSize
  · rw [if_pos h, if_pos h]
  · rw [if_neg h, if_neg h]

/-- Claim C8: a `Config` with empty `File` is forced in-memory-only by
`applyConfigDefaults`: `AutoLSSCleaning` and `AutoSwapper` become
`false` and `shouldPersist` is left at its incoming value (hence at its
zero value `false` for every externally constructible `Config`, since
the field is unexported); a `Config` with a non-empty `File` has
`shouldPersist` enabled. -/
theorem c8_file_empty_forces_in_memory (numCPU : Int) (cfg : Config) :
    (cfg.File = "" →
      (applyConfigDefaults numCPU cfg).AutoLSSCleaning = false ∧
      (applyConfigDefaults numCPU cfg).AutoSwapper = false ∧
      (applyConfigDefaults numCPU cfg).shouldPersist = cfg.shouldPersist) ∧
    (cfg.File ≠ "" →
      (applyConfigDefaults numCPU cfg).shouldPersist = true) := by
  constructor <;> intro h <;>
    simp [applyConfigDefaults, stepNumPersistor_eq, stepNumEvictor_eq,
      stepTrigger_eq, stepFile_eq, stepMaxSnSync_eq, stepLogSegment_eq,
      stepMaxPageLSS_eq, stepCopyItem_eq, stepCopyIndexKey_eq,
      stepIndexKeySize_eq, stepItemRun_eq, stepCleanerMax_eq,
      stepThrottleMin_eq, h]

/-- Witness for C8 at concrete configurations: `DefaultConfig` has an
empty `File`; the same configuration with `File := "teststore.data"`
gets persistence enabled. -/
theorem c8_witness :
    ((applyConfigDefaults 8 DefaultConfig).AutoLSSCleaning = false ∧
      (applyConfigDefaults 8 DefaultConfig).AutoSwapper = false ∧
      (applyConfigDefaults 8 DefaultConfig).shouldPersist =
        DefaultConfig.shouldPersist) ∧
    (applyConfigDefaults 8
      { DefaultConfig with File := "teststore.data" }).shouldPersist = true :=
  ⟨(c8_file_empty_forces_in_memory 8 DefaultConfig).1 rfl,
    (c8_file_empty_forces_in_memory 8
      { DefaultConfig with File := "teststore.data" }).2 (by decide)⟩

/-- Claim C9: the documented configuration defaults: `DefaultConfig`
sets `MaxDeltaChainLen` 200, `MaxPageItems` 400, `MinPageItems` 25 and
`FlushBufferSize` 1 MiB, and `applyConfigDefaults` fills a zero
`MaxPageLSSSegments` with 4 and a zero `LSSLogSegmentSize` with
4 GiB. -/
theorem c9_documented_defaults (numCPU : Int) (cfg : Config) :
    DefaultConfig.MaxDeltaChainLen = 200 ∧
    DefaultConfig.MaxPageItems = 400 ∧
    DefaultConfig.MinPageItems = 25 ∧
    DefaultConfig.FlushBufferSize = 1024 * 1024 ∧
    (cfg.MaxPageLSSSegments = 0 →
      (applyConfigDefaults numCPU cfg).MaxPageLSSSegments = 4) ∧
    (cfg.LSSLogSegmentSize = 0 →
      (applyConfigDefaults numCPU cfg).LSSLogSegmentSize =
        4 * 1024 * 1024 * 1024) := by
  refine ⟨rfl, rfl, rfl, rfl, ?_, ?_⟩ <;> intro h <;>
    simp [applyConfigDefaults, stepNumPersistor_eq, stepNumEvictor_eq,
      stepTrigger_eq, stepFile_eq, stepMaxSnSync_eq, stepLogSegment_eq,
      stepMaxPageLSS_eq, stepCopyItem_eq, stepCopyIndexKey_eq,
      stepIndexKeySize_eq, stepItemRun_eq, stepCleanerMax_eq,
      stepThrottleMin_eq, h]

/-- Witness for C9 at the concrete configuration `DefaultConfig`, whose
`MaxPageLSSSegments` and `LSSLogSegmentSize` are both zero. -/
theorem c9_witness :
    (applyConfigDefaults 8 DefaultConfig).MaxPageLSSSegments = 4 ∧
    (applyConfigDefaults 8 DefaultConfig).LSSLogSegmentSize =
      4 * 1024 * 1024 * 1024 :=
  ⟨(c9_documented_defaults 8 DefaultConfig).2.2.2.2.1 rfl,
    (c9_documented_defaults 8 DefaultConfig).2.2.2.2.2 rfl⟩

/-- Claim C10: `applyConfigDefaults` turns a zero
`LSSCleanerMaxThreshold` into `LSSCleanerThreshold + 10` and keeps a
nonzero supplied value unchanged. -/
theorem c10_cleaner_max_threshold_default (numCPU : Int) (cfg : Config) :
    (cfg.LSSCleanerMaxThreshold = 0 →
      (applyConfigDefaults numCPU cfg).LSSCleanerMaxThreshold =
        cfg.LSSCleanerThreshold + 10) ∧
    (cfg.LSSCleanerMaxThreshold ≠ 0 →
      (applyConfigDefaults numCPU cfg).LSSCleanerMaxThreshold =
        cfg.LSSCleanerMaxThreshold) := by
  constructor <;> intro h <;>
    simp [applyConfigDefaults, stepNumPersistor_eq, stepNumEvictor_eq,
      stepTrigger_eq, stepFile_eq, stepMaxSnSync_eq, stepLogSegment_eq,
      stepMaxPageLSS_eq, stepCopyItem_eq, stepCopyIndexKey_eq,
      stepIndexKeySize_eq, stepItemRun_eq, stepCleanerMax_eq,
      stepThrottleMin_eq, h]

/-- Witness for C10: `DefaultConfig` leaves `LSSCleanerMaxThreshold`
zero, so it is defaulted from `LSSCleanerThreshold`; the test
configuration value 100 is kept unchanged. -/
theorem c10_witness :
    (applyConfigDefaults 8 DefaultConfig).LSSCleanerMaxThreshold =
      DefaultConfig.LSSCleanerThreshold + 10 ∧
    (applyConfigDefaults 8
      { DefaultConfig with
          LSSCleanerMaxThreshold := 100 }).LSSCleanerMaxThreshold = 100 :=
  ⟨(c10_cleaner_max_threshold_default 8 DefaultConfig).1 rfl,
    (c10_cleaner_max_threshold_default 8
      { DefaultConfig with LSSCleanerMaxThreshold := 100 }).2 (by decide)⟩

/-! ## Logical store model

The plasma store implementation (`plasma.go`, `page.go`, `iterator.go`,
`lss.go`, ...) is not among the repository sources; only its tests and
`config.go` are.  The definitions below are therefore modelled from the
specification, at the logical level the specification assigns to the
store: an ordered map driven by newest-first delta records.  Items are
the integer keys of the test workloads. -/

/-- Modelled from the spec: the logical operation kind of a record,
*Insert* or *Delete* (tombstone), from the data model section.  The
store implementation owning this type is missing from the sources. -/
inductive Op where
  | ins
  | del
  deriving DecidableEq

/-- Modelled from the spec: the store's logical contents as the
newest-first chain of delta records, together with the chain state
captured by the last `PersistAll` (what recovery rebuilds from the
LSS).  The page partitioning of the missing implementation refines this
single chain; per-key lookup semantics are unaffected by the
partitioning. -/
structure Store where
  chain : List (Nat × Op)
  persisted : List (Nat × Op)

/-- Modelled from the spec: errors surfaced by store operations.  An
absent key is *not* one of them: `Lookup` signals absence through its
explicit marker. -/
inductive PlasmaError where
  | ioError
  | corruption
  | closedStore
  deriving DecidableEq

/-- Modelled from the spec, page lookup: walk the delta chain
newest-first; the first record with a matching key decides the answer
(Insert yields the item, Delete yields the absent marker); no record
means absent. -/
def lookupChain : List (Nat × Op) → Nat → Option Nat
  | [], _ => none
  | (j, op) :: rest, k =>
    if j = k then
      match op with
      | Op.ins => some j
      | Op.del => none
    else lookupChain rest k

/-- A store with nothing inserted and nothing persisted. -/
def emptyStore : Store := { chain := [], persisted := [] }

/-- Modelled from the spec: `Writer.Insert` prepends an insert delta. -/
def Store.Insert (s : Store) (k : Nat) : Store :=
  { s with chain := (k, Op.ins) :: s.chain }

/-- Modelled from the spec: `Writer.Delete` prepends a delete
(tombstone) delta. -/
def Store.Delete (s : Store) (k : Nat) : Store :=
  { s with chain := (k, Op.del) :: s.chain }

/-- Modelled from the spec: `Writer.Lookup` never turns absence into an
error; it returns the explicit absent marker `none` inside a successful
result. -/
def Store.Lookup (s : Store) (k : Nat) : Except PlasmaError (Option Nat) :=
  Except.ok (lookupChain s.chain k)

/-- Modelled from the spec: `PersistAll` flushes every dirty page, so
the persisted image now reflects the whole chain. -/
def Store.PersistAll (s : Store) : Store :=
  { s with persisted := s.chain }

/-- Modelled from the spec: recovery on reopen rebuilds the store from
the LSS image written by `PersistAll`; lookup and scan agree with the
persisted state. -/
def recoverStore (s : Store) : Store :=
  { chain := s.persisted, persisted := s.persisted }

/-- Sequential insertion of a list of keys by one writer. -/
def insertAll (s : Store) (l : List Nat) : Store :=
  l.foldl Store.Insert s

/-- Sequential deletion of a list of keys by one writer. -/
def deleteAll (s : Store) (l : List Nat) : Store :=
  l.foldl Store.Delete s

theorem lookup_insertAll (s : Store) (l : List Nat) (k : Nat) :
    lookupChain (insertAll s l).chain k =
      if k ∈ l then some k else lookupChain s.chain k := by
  induction l generalizing s with
  | nil => simp [insertAll]
  | cons a t ih =>
    show lookupChain (insertAll (s.Insert a) t).chain k = _
    rw [ih]
    by_cases hk : k ∈ t
    · simp [hk, List.mem_cons]
    · by_cases ha : k = a
      · simp [hk, ha, Store.Insert, lookupChain]
      · have : ¬ (a = k) := fun h => ha h.symm
        simp [hk, ha, Store.Insert, lookupChain, this]

theorem lookup_deleteAll (s : Store) (l : List Nat) (k : Nat) :
    lookupChain (deleteAll s l).chain k =
      if k ∈ l then none else lookupChain s.chain k := by
  induction l generalizing s with
  | nil => simp [deleteAll]
  | cons a t ih =>
    show lookupChain (deleteAll (s.Delete a) t).chain k = _
    rw [ih]
    by_cases hk : k ∈ t
    · simp [hk, List.mem_cons]
    · by_cases ha : k = a
      · simp [hk, ha, Store.Delete, lookupChain]
      · have : ¬ (a = k) := fun h => ha h.symm
        simp [hk, ha, Store.Delete, lookupChain, this]

/-- Scenario A state: one writer inserts keys 0..999999 and then
deletes keys 0..799999. -/
def c2Store : Store :=
  deleteAll (insertAll emptyStore (List.range 1000000)) (List.range 800000)

/-- Claim C2: after inserting 0..999999 and deleting 0..799999, every
key below 800000 looks up to the explicit absent marker (no error) and
every key in 800000..999999 looks up to its matching item. -/
theorem c2_lookup_after_delete (k : Nat) :
    (k < 800000 → c2Store.Lookup k = Except.ok none) ∧
    (800000 ≤ k → k < 1000000 → c2Store.Lookup k = Except.ok (some k)) := by
  constructor
  · intro h
    show Except.ok (lookupChain c2Store.chain k) = _
    rw [show c2Store.chain =
          (deleteAll (insertAll emptyStore (List.range 1000000))
            (List.range 800000)).chain from rfl,
      lookup_deleteAll]
    simp [List.mem_range, h]
  · intro h1 h2
    show Except.ok (lookupChain c2Store.chain k) = _
    rw [show c2Store.chain =
          (deleteAll (insertAll emptyStore (List.range 1000000))
            (List.range 800000)).chain from rfl,
      lookup_deleteAll, lookup_insertAll]
    simp [List.mem_range, h2, Nat.not_lt.mpr h1]

/-- Witness for C2 at the concrete keys 0 and 800000. -/
theorem c2_witness :
    c2Store.Lookup 0 = Except.ok none ∧
    c2Store.Lookup 800000 = Except.ok (some 800000) :=
  ⟨(c2_lookup_after_delete 0).1 (by decide),
    (c2_lookup_after_delete 800000).2 (by decide) (by decide)⟩

/-! ## Iterator model -/

/-- Keys with a live (non-tombstoned) newest record. -/
def liveKeys (s : Store) : Finset Nat :=
  (s.chain.map Prod.fst).toFinset.filter
    fun k => (lookupChain s.chain k).isSome = true

/-- Modelled from the spec: the scan cursor materializes a merged view
of base and deltas, yields items in sorted order and filters deletes. -/
def scanList (s : Store) : List Nat :=
  (liveKeys s).sort (· ≤ ·)

/-- Modelled from the spec: a forward range-scan iterator; `rest` is
the not-yet-consumed part of the materialized view, `endKey` the
optional exclusive bound installed by `SetEndKey`. -/
structure Iterator where
  rest : List Nat
  endKey : Option Nat

/-- Modelled from the spec: `Store.NewIterator`. -/
def Store.NewIterator (_ : Store) : Iterator :=
  { rest := [], endKey := none }

/-- Modelled from the spec: `Iterator.SetEndKey` installs the end key. -/
def Iterator.SetEndKey (it : Iterator) (k : Nat) : Iterator :=
  { it with endKey := some k }

/-- Modelled from the spec: `Iterator.SeekFirst` positions the cursor
on the materialized view of the store. -/
def Iterator.SeekFirst (it : Iterator) (s : Store) : Iterator :=
  { it with rest := scanList s }

/-- Whether a key lies below the (exclusive) end bound. -/
def withinEnd : Option Nat → Nat → Bool
  | none, _ => true
  | some e, k => decide (k < e)

/-- Modelled from the spec: `Iterator.Valid` holds while an item remains
and it is below the end key. -/
def Iterator.Valid (it : Iterator) : Bool :=
  match it.rest with
  | [] => false
  | k :: _ => withinEnd it.endKey k

/-- Modelled from the spec: `Iterator.Get` returns the current item. -/
def Iterator.Get (it : Iterator) : Option Nat :=
  it.rest.head?

/-- Modelled from the spec: `Iterator.Next` advances the cursor. -/
def Iterator.Next (it : Iterator) : Iterator :=
  { it with rest := it.rest.tail }

/-- Items produced by driving `Valid`/`Get`/`Next` to completion. -/
def driveAux : List Nat → Option Nat → List Nat
  | [], _ => []
  | k :: ks, e => if withinEnd e k then k :: driveAux ks e else []

/-- The list of items an iterator yields from its current position. -/
def Iterator.drive (it : Iterator) : List Nat :=
  driveAux it.rest it.endKey

/-- A full scan: fresh iterator, `SeekFirst`, then `Next` until
invalid. -/
def fullScan (s : Store) : List Nat :=
  (Iterator.SeekFirst (Store.NewIterator s) s).drive

theorem driveAux_none (l : List Nat) : driveAux l none = l := by
  induction l with
  | nil => rfl
  | cons a t ih => simp [driveAux, withinEnd, ih]

theorem fullScan_eq_scanList (s : Store) : fullScan s = scanList s :=
  driveAux_none (scanList s)

theorem lookupChain_eq_some {c : List (Nat × Op)} {k j : Nat}
    (h : lookupChain c k = some j) : j = k := by
  induction c with
  | nil => simp [lookupChain] at h
  | cons e rest ih =>
    obtain ⟨a, op⟩ := e
    by_cases ha : a = k
    · subst ha
      cases op <;> simp [lookupChain] at h
      exact h.symm
    · simp only [lookupChain] at h
      rw [if_neg ha] at h
      exact ih h

theorem lookupChain_isSome_mem {c : List (Nat × Op)} {k : Nat}
    (h : (lookupChain c k).isSome = true) : k ∈ c.map Prod.fst := by
  induction c with
  | nil => simp [lookupChain] at h
  | cons e rest ih =>
    obtain ⟨a, op⟩ := e
    by_cases ha : a = k
    · subst ha
      simp
    · simp only [lookupChain] at h
      rw [if_neg ha] at h
      simp [ih h]

theorem lookupChain_not_mem {c : List (Nat × Op)} {k : Nat}
    (h : k ∉ c.map Prod.fst) : lookupChain c k = none := by
  induction c with
  | nil => rfl
  | cons e rest ih =>
    obtain ⟨a, op⟩ := e
    simp only [List.map_cons, List.mem_cons] at h
    push_neg at h
    simp only [lookupChain]
    rw [if_neg fun hh => h.1 hh.symm]
    exact ih h.2

theorem mem_fullScan {s : Store} {k : Nat} :
    k ∈ fullScan s ↔ lookupChain s.chain k = some k := by
  rw [fullScan_eq_scanList, scanList, Finset.mem_sort, liveKeys,
    Finset.mem_filter, List.mem_toFinset]
  constructor
  · rintro ⟨hmem, hsome⟩
    obtain ⟨j, hj⟩ := Option.isSome_iff_exists.mp hsome
    rw [hj, lookupChain_eq_some hj]
  · intro h
    exact ⟨lookupChain_isSome_mem (by simp [h]), by simp [h]⟩

/-- Claim C7: a full scan yields exactly the live keys — strictly
ascending, without duplicates, every live key present, and no
tombstoned key present. -/
theorem c7_full_scan_yields_live_keys (s : Store) :
    (fullScan s).Sorted (· < ·) ∧ (fullScan s).Nodup ∧
    (∀ k, k ∈ fullScan s ↔ lookupChain s.chain k = some k) ∧
    (∀ k, lookupChain s.chain k = none → k ∉ fullScan s) := by
  refine ⟨?_, ?_, fun k => mem_fullScan, fun k h hk => ?_⟩
  · rw [fullScan_eq_scanList]
    exact Finset.sort_sorted_lt _
  · rw [fullScan_eq_scanList]
    exact Finset.sort_nodup _ _
  · rw [mem_fullScan, h] at hk
    cases hk

/-- Witness for C7 on the concrete store that inserts 1 and deletes 2:
the scan is sorted and the tombstoned key 2 does not appear. -/
theorem c7_witness :
    (fullScan ((emptyStore.Insert 1).Delete 2)).Sorted (· < ·) ∧
    2 ∉ fullScan ((emptyStore.Insert 1).Delete 2) :=
  ⟨(c7_full_scan_yields_live_keys ((emptyStore.Insert 1).Delete 2)).1,
    (c7_full_scan_yields_live_keys ((emptyStore.Insert 1).Delete 2)).2.2.2
      2 rfl⟩

theorem mem_map_fst_insertAll (s : Store) (l : List Nat) (k : Nat) :
    k ∈ (insertAll s l).chain.map Prod.fst ↔
      k ∈ l ∨ k ∈ s.chain.map Prod.fst := by
  induction l generalizing s with
  | nil => simp [insertAll]
  | cons a t ih =>
    show k ∈ (insertAll (s.Insert a) t).chain.map Prod.fst ↔ _
    rw [ih]
    simp only [Store.Insert, List.map_cons, List.mem_cons]
    tauto

theorem mem_map_fst_deleteAll (s : Store) (l : List Nat) (k : Nat) :
    k ∈ (deleteAll s l).chain.map Prod.fst ↔
      k ∈ l ∨ k ∈ s.chain.map Prod.fst := by
  induction l generalizing s with
  | nil => simp [deleteAll]
  | cons a t ih =>
    show k ∈ (deleteAll (s.Delete a) t).chain.map Prod.fst ↔ _
    rw [ih]
    simp only [Store.Delete, List.map_cons, List.mem_cons]
    tauto

theorem driveAux_append_all {l₁ l₂ : List Nat} {e : Option Nat}
    (h : ∀ k ∈ l₁, withinEnd e k = true) :
    driveAux (l₁ ++ l₂) e = l₁ ++ driveAux l₂ e := by
  induction l₁ with
  | nil => simp
  | cons a t ih =>
    have ha := h a (List.mem_cons_self a t)
    simp [driveAux, ha, ih fun k hk => h k (List.mem_cons_of_mem a hk)]

theorem driveAux_stop {k : Nat} {ks : List Nat} {e : Option Nat}
    (h : withinEnd e k = false) : driveAux (k :: ks) e = [] := by
  simp [driveAux, h]

/-- Scenario E state: 0..99999 inserted by one writer. -/
def c6Store : Store := insertAll emptyStore (List.range 100000)

theorem scanList_c6Store : scanList c6Store = List.range 100000 := by
  have hlook : ∀ k, lookupChain c6Store.chain k =
      if k ∈ List.range 100000 then some k else none := by
    intro k
    rw [show c6Store.chain =
          (insertAll emptyStore (List.range 100000)).chain from rfl,
      lookup_insertAll]
    rfl
  have hlive : liveKeys c6Store = Finset.range 100000 := by
    apply Finset.ext
    intro k
    rw [liveKeys, Finset.mem_filter, List.mem_toFinset,
      show c6Store.chain =
        (insertAll emptyStore (List.range 100000)).chain from rfl,
      mem_map_fst_insertAll]
    rw [show (insertAll emptyStore (List.range 100000)).chain =
        c6Store.chain from rfl, hlook k]
    by_cases h : k < 100000 <;>
      simp [emptyStore, List.mem_range, Finset.mem_range, h]
  rw [scanList, hlive, Finset.sort_range]

/-- Claim C6: after inserting 0..99999, an iterator with
`SetEndKey 10000`, driven by `SeekFirst` and `Next` until invalid,
yields exactly the keys 0..9999 — the end key is exclusive. -/
theorem c6_iterator_end_key_exclusive :
    (Iterator.SeekFirst (Iterator.SetEndKey (Store.NewIterator c6Store)
      10000) c6Store).drive = List.range 10000 := by
  show driveAux (scanList c6Store) (some 10000) = List.range 10000
  rw [scanList_c6Store, List.range_eq_range',
    show (100000 : Nat) = 90000 + 10000 from rfl,
    ← List.range'_append 0 10000 90000 1]
  have hpass : ∀ k ∈ List.range' 0 10000, withinEnd (some 10000) k = true := by
    intro k hk
    rw [List.mem_range'_1] at hk
    simp only [withinEnd, decide_eq_true_eq]
    omega
  rw [driveAux_append_all hpass]
  rw [show (0 + 1 * 10000 : Nat) = 10000 from rfl,
    show (90000 : Nat) = 89999 + 1 from rfl,
    List.range'_succ 10000 89999 1,
    driveAux_stop (by decide), List.append_nil]
  exact (List.range_eq_range' 10000).symm

/-! ## Recovery (scenario B) -/

theorem lookupChain_append_not_mem {c₁ c₂ : List (Nat × Op)} {k : Nat}
    (h : k ∉ c₁.map Prod.fst) :
    lookupChain (c₁ ++ c₂) k = lookupChain c₂ k := by
  induction c₁ with
  | nil => rfl
  | cons e rest ih =>
    obtain ⟨a, op⟩ := e
    simp only [List.map_cons, List.mem_cons] at h
    push_neg at h
    simp only [List.cons_append, lookupChain]
    rw [if_neg fun hh => h.1 hh.symm]
    exact ih h.2

theorem lookupChain_append_del {c₁ c₂ : List (Nat × Op)} {k : Nat}
    (hall : ∀ e ∈ c₁, e.2 = Op.del) (hk : k ∈ c₁.map Prod.fst) :
    lookupChain (c₁ ++ c₂) k = none := by
  induction c₁ with
  | nil => simp at hk
  | cons e rest ih =>
    obtain ⟨a, op⟩ := e
    have hop : op = Op.del := hall (a, op) (List.mem_cons_self _ _)
    subst hop
    by_cases ha : a = k
    · simp only [List.cons_append, lookupChain]
      rw [if_pos ha]
    · simp only [List.map_cons, List.mem_cons] at hk
      have hrest : k ∈ rest.map Prod.fst := by
        rcases hk with h1 | h2
        · exact absurd h1.symm ha
        · exact h2
      simp only [List.cons_append, lookupChain]
      rw [if_neg ha]
      exact ih (fun e he => hall e (List.mem_cons_of_mem _ he)) hrest

theorem lookupChain_all_ins {c : List (Nat × Op)} {k : Nat}
    (hall : ∀ e ∈ c, e.2 = Op.ins) (hk : k ∈ c.map Prod.fst) :
    lookupChain c k = some k := by
  induction c with
  | nil => simp at hk
  | cons e rest ih =>
    obtain ⟨a, op⟩ := e
    have hop : op = Op.ins := hall (a, op) (List.mem_cons_self _ _)
    subst hop
    by_cases ha : a = k
    · simp only [lookupChain]
      rw [if_pos ha, ha]
    · simp only [List.map_cons, List.mem_cons] at hk
      have hrest : k ∈ rest.map Prod.fst := by
        rcases hk with h1 | h2
        · exact absurd h1.symm ha
        · exact h2
      simp only [lookupChain]
      rw [if_neg ha]
      exact ih (fun e he => hall e (List.mem_cons_of_mem _ he)) hrest

theorem map_fst_keyed (n : Nat) (op : Op) :
    ((List.range n).map fun k => (k, op)).map Prod.fst = List.range n := by
  rw [List.map_map]
  exact List.map_id _

theorem toFinset_range' (a n : Nat) :
    (List.range' a n).toFinset = Finset.Ico a (a + n) := by
  apply Finset.ext
  intro k
  rw [List.mem_toFinset, List.mem_range'_1, Finset.mem_Ico]

theorem sort_Ico_eq_range' (a n : Nat) :
    (Finset.Ico a (a + n)).sort (· ≤ ·) = List.range' a n := by
  have hperm : ((Finset.Ico a (a + n)).sort (· ≤ ·)).Perm
      (List.range' a n) := by
    apply List.perm_of_nodup_nodup_toFinset_eq (Finset.sort_nodup _ _)
      (List.nodup_range' a n)
    rw [toFinset_range',
      List.toFinset_eq_of_perm _ _ (Finset.sort_perm_toList _ _),
      Finset.toList_toFinset]
  exact List.eq_of_perm_of_sorted hperm (Finset.sort_sorted _ _)
    (List.Pairwise.imp (fun h => le_of_lt h) (List.pairwise_lt_range' a n))

/-- A store freshly built from a chain, with nothing yet persisted. -/
def mkStore (c : List (Nat × Op)) : Store := { chain := c, persisted := [] }

/-- Scenario B: eight threads insert keys 0..999999 (chain suffix
`inss`, one insert record per key, in whatever interleaving the threads
produced), then eight threads delete keys 0..899999 (chain prefix
`dels`); then `PersistAll`, `Close` and reopen. -/
def c1Recovered (dels inss : List (Nat × Op)) : Store :=
  recoverStore (mkStore (dels ++ inss)).PersistAll

/-- The canonical (sequential-order) interleavings of the two phases of
scenario B. -/
def c1CanonDels : List (Nat × Op) := (List.range 900000).map fun k => (k, Op.del)

/-- Canonical insert phase of scenario B. -/
def c1CanonInss : List (Nat × Op) := (List.range 1000000).map fun k => (k, Op.ins)

/-- Counterexample to claim C1 as stated: it asserts a matching item
for every key in 899999..999999, but after recovery from the canonical
run of scenario B the key 899999 (which the same scenario deletes)
looks up to the absent marker. -/
theorem c1_counterexample :
    (c1Recovered c1CanonDels c1CanonInss).Lookup 899999 = Except.ok none := by
  have hall : ∀ e ∈ c1CanonDels, e.2 = Op.del := by
    intro e he
    simp only [c1CanonDels, List.mem_map] at he
    obtain ⟨k, hk, rfl⟩ := he
    rfl
  have hk : (899999 : Nat) ∈ c1CanonDels.map Prod.fst := by
    rw [show c1CanonDels.map Prod.fst = List.range 900000 from
      map_fst_keyed 900000 Op.del]
    exact List.mem_range.mpr (by decide)
  show Except.ok (lookupChain (c1CanonDels ++ c1CanonInss) 899999) =
    Except.ok none
  rw [lookupChain_append_del hall hk]

/-- Claim C1 (amended at the boundary key): for every interleaving of
the two phases of scenario B, after `PersistAll`, `Close` and reopen,
every key in 0..899999 looks up absent, every key in 900000..999999
looks up to its matching item, and a full scan yields exactly the
100000 keys from 900000 upward in ascending order. -/
theorem c1_recovery_equivalence (dels inss : List (Nat × Op))
    (hd : dels.Perm ((List.range 900000).map fun k => (k, Op.del)))
    (hi : inss.Perm ((List.range 1000000).map fun k => (k, Op.ins))) :
    (∀ k, k < 900000 →
      (c1Recovered dels inss).Lookup k = Except.ok none) ∧
    (∀ k, 900000 ≤ k → k < 1000000 →
      (c1Recovered dels inss).Lookup k = Except.ok (some k)) ∧
    fullScan (c1Recovered dels inss) = List.range' 900000 100000 ∧
    (fullScan (c1Recovered dels inss)).length = 100000 ∧
    (fullScan (c1Recovered dels inss)).Sorted (· < ·) := by
  have hdm : ∀ k, (k ∈ dels.map Prod.fst ↔ k < 900000) := by
    intro k
    rw [(hd.map Prod.fst).mem_iff, map_fst_keyed, List.mem_range]
  have him : ∀ k, (k ∈ inss.map Prod.fst ↔ k < 1000000) := by
    intro k
    rw [(hi.map Prod.fst).mem_iff, map_fst_keyed, List.mem_range]
  have halld : ∀ e ∈ dels, e.2 = Op.del := by
    intro e he
    have h2 := hd.mem_iff.mp he
    simp only [List.mem_map] at h2
    obtain ⟨k, _, rfl⟩ := h2
    rfl
  have halli : ∀ e ∈ inss, e.2 = Op.ins := by
    intro e he
    have h2 := hi.mem_iff.mp he
    simp only [List.mem_map] at h2
    obtain ⟨k, _, rfl⟩ := h2
    rfl
  have hlook : ∀ k, lookupChain (dels ++ inss) k =
      if k < 900000 then none else if k < 1000000 then some k else none := by
    intro k
    by_cases h1 : k < 900000
    · rw [lookupChain_append_del halld ((hdm k).mpr h1), if_pos h1]
    · rw [lookupChain_append_not_mem fun hm => h1 ((hdm k).mp hm),
        if_neg h1]
      by_cases h2 : k < 1000000
      · rw [lookupChain_all_ins halli ((him k).mpr h2), if_pos h2]
      · rw [lookupChain_not_mem fun hm => h2 ((him k).mp hm), if_neg h2]
  have hchain : (c1Recovered dels inss).chain = dels ++ inss := rfl
  have hlive : liveKeys (c1Recovered dels inss) =
      Finset.Ico 900000 1000000 := by
    apply Finset.ext
    intro k
    rw [liveKeys, Finset.mem_filter, List.mem_toFinset, Finset.mem_Ico,
      hchain, hlook k, List.map_append, List.mem_append]
    rw [hdm k, him k]
    by_cases h1 : k < 900000 <;> by_cases h2 : k < 1000000 <;>
      simp [h1, h2] <;> omega
  have hscan : fullScan (c1Recovered dels inss) =
      List.range' 900000 100000 := by
    rw [fullScan_eq_scanList, scanList, hlive,
      show (1000000 : Nat) = 900000 + 100000 from rfl, sort_Ico_eq_range']
  refine ⟨?_, ?_, hscan, ?_, ?_⟩
  · intro k hk
    show Except.ok (lookupChain (dels ++ inss) k) = Except.ok none
    rw [hlook k, if_pos hk]
  · intro k hk1 hk2
    show Except.ok (lookupChain (dels ++ inss) k) = Except.ok (some k)
    rw [hlook k, if_neg (Nat.not_lt.mpr hk1), if_pos hk2]
  · rw [hscan]
    exact List.length_range' 900000 1 100000
  · rw [hscan]
    exact List.pairwise_lt_range' 900000 100000

/-- Witness for the amended C1 at the canonical interleaving and the
concrete keys 0 and 900000. -/
theorem c1_witness :
    (c1Recovered c1CanonDels c1CanonInss).Lookup 0 = Except.ok none ∧
    (c1Recovered c1CanonDels c1CanonInss).Lookup 900000 =
      Except.ok (some 900000) ∧
    fullScan (c1Recovered c1CanonDels c1CanonInss) =
      List.range' 900000 100000 :=
  have h := c1_recovery_equivalence c1CanonDels c1CanonInss
    (List.Perm.refl _) (List.Perm.refl _)
  ⟨h.1 0 (by decide), h.2.1 900000 (by decide) (by decide), h.2.2.1⟩

/-! ## Eviction model -/

/-- Modelled from the spec: a page as the evictor sees it — the
resident in-memory contents (`none` once swapped out), the LSS offset
of the most recent full flush, whether the page is clean (the chain
head is a flush delta covering all items), and its cached memory size.
The page implementation is missing from the sources. -/
structure Page where
  resident : Option (List Nat)
  lssOff : Option Nat
  clean : Bool
  memSz : Nat

/-- Modelled from the spec: the store as seen by `EvictAll` — its pages
and the LSS read function mapping a flush offset to the page image
recorded there. -/
structure EvStore where
  pages : List Page
  lss : Nat → Option (List Nat)

/-- Modelled from the spec: reading a page's logical contents — the
resident contents if cached, otherwise swap-in from the LSS at the
recorded offset. -/
def pageContents (lss : Nat → Option (List Nat)) (p : Page) :
    Option (List Nat) :=
  match p.resident with
  | some items => some items
  | none =>
    match p.lssOff with
    | some off => lss off
    | none => none

/-- Modelled from the spec: the evictor swaps out a page exactly when
it is clean and carries a valid LSS offset, replacing its head with a
swapout delta that holds no other in-memory data. -/
def evictPage (p : Page) : Page :=
  if p.clean && p.lssOff.isSome then
    { p with resident := none, memSz := 0 }
  else p

/-- Modelled from the spec: `EvictAll` drives the evictors over every
page. -/
def EvStore.EvictAll (s : EvStore) : EvStore :=
  { s with pages := s.pages.map evictPage }

/-- Modelled from the spec: the `MemSz` statistic — total cached memory
size over all pages. -/
def EvStore.MemSz (s : EvStore) : Nat :=
  (s.pages.map Page.memSz).sum

/-- Logical contents of the store, page by page. -/
def EvStore.contents (s : EvStore) : List (Option (List Nat)) :=
  s.pages.map (pageContents s.lss)

/-- Modelled from the spec: whether a lookup over the pages finds the
key. -/
def EvStore.LookupKey (s : EvStore) (k : Nat) : Bool :=
  s.contents.any fun c =>
    match c with
    | some items => items.contains k
    | none => false

/-- Modelled from the spec: a full scan concatenates the materialized
page views in page order. -/
def EvStore.ScanAll (s : EvStore) : List Nat :=
  (s.contents.filterMap id).flatten

/-- A page is clean and persisted: its flush at the recorded LSS offset
covers its current logical contents. -/
def cleanPersisted (lss : Nat → Option (List Nat)) (p : Page) : Prop :=
  p.clean = true ∧ ∃ off, p.lssOff = some off ∧ lss off = pageContents lss p

theorem pageContents_evictPage {lss : Nat → Option (List Nat)} {p : Page}
    (h : cleanPersisted lss p) :
    pageContents lss (evictPage p) = pageContents lss p := by
  obtain ⟨hc, off, hoff, hread⟩ := h
  have hcond : (p.clean && p.lssOff.isSome) = true := by
    rw [hc, hoff]
    rfl
  simp only [evictPage]
  rw [if_pos hcond]
  show (match p.lssOff with | some o => lss o | none => none) =
    pageContents lss p
  rw [hoff]
  exact hread

theorem memSz_evictPage {lss : Nat → Option (List Nat)} {p : Page}
    (h : cleanPersisted lss p) : (evictPage p).memSz = 0 := by
  obtain ⟨hc, off, hoff, _⟩ := h
  have hcond : (p.clean && p.lssOff.isSome) = true := by
    rw [hc, hoff]
    rfl
  simp only [evictPage]
  rw [if_pos hcond]

theorem sum_map_zero (l : List Page) : (l.map fun _ => (0 : Nat)).sum = 0 := by
  induction l with
  | nil => rfl
  | cons a t ih => simp [ih]

theorem contents_evictAll {s : EvStore}
    (h : ∀ p ∈ s.pages, cleanPersisted s.lss p) :
    (s.EvictAll).contents = s.contents := by
  show (s.pages.map evictPage).map (pageContents s.lss) =
    s.pages.map (pageContents s.lss)
  rw [List.map_map]
  exact List.map_congr_left fun p hp => pageContents_evictPage (h p hp)

/-- Claim C3: on a store whose pages are all clean and persisted, a
quiescent `EvictAll` preserves every lookup and the full scan, and
drives `MemSz` to exactly zero. -/
theorem c3_evict_all_transparency (s : EvStore)
    (h : ∀ p ∈ s.pages, cleanPersisted s.lss p) :
    (∀ k, (s.EvictAll).LookupKey k = s.LookupKey k) ∧
    (s.EvictAll).ScanAll = s.ScanAll ∧
    (s.EvictAll).MemSz = 0 := by
  have hc := contents_evictAll h
  refine ⟨fun k => ?_, ?_, ?_⟩
  · unfold EvStore.LookupKey
    rw [hc]
  · unfold EvStore.ScanAll
    rw [hc]
  · show ((s.pages.map evictPage).map Page.memSz).sum = 0
    rw [List.map_map]
    have h0 : List.map (Page.memSz ∘ evictPage) s.pages =
        List.map (fun _ => (0 : Nat)) s.pages :=
      List.map_congr_left fun p hp => memSz_evictPage (h p hp)
    rw [h0, sum_map_zero]

/-- A one-page store whose single page is clean and flushed at LSS
offset 0. -/
def evWitnessStore : EvStore :=
  { pages := [{ resident := some [1, 2], lssOff := some 0,
                clean := true, memSz := 5 }],
    lss := fun off => if off = 0 then some [1, 2] else none }

/-- Witness for C3 on the concrete one-page store. -/
theorem c3_witness :
    (evWitnessStore.EvictAll).LookupKey 1 = evWitnessStore.LookupKey 1 ∧
    (evWitnessStore.EvictAll).ScanAll = evWitnessStore.ScanAll ∧
    (evWitnessStore.EvictAll).MemSz = 0 := by
  have h : ∀ p ∈ evWitnessStore.pages, cleanPersisted evWitnessStore.lss p := by
    intro p hp
    simp only [evWitnessStore, List.mem_singleton] at hp
    subst hp
    exact ⟨rfl, 0, rfl, rfl⟩
  exact ⟨(c3_evict_all_transparency evWitnessStore h).1 1,
    (c3_evict_all_transparency evWitnessStore h).2.1,
    (c3_evict_all_transparency evWitnessStore h).2.2⟩
